import Mathlib

/-!
Verification of the cart state-reconciliation slice of the sleep-outside
storefront (src/js/cart.js and the localStorage helpers of utils.mjs).

The JavaScript values relevant to the cart are embedded shallowly:

* A cart line item's `Quantity` field may hold a genuine number, `null`, or a
  value whose numeric coercion is NaN (missing field, non-numeric string).
  `QtyVal` distinguishes exactly these classes, since `Number(x) || 1`
  treats them differently (`Number(null) = 0`, `Number(undefined) = NaN`).
* JavaScript numbers are modelled as rationals (`ℚ`); the quantities and
  prices manipulated here stay small and exact.
* The persisted `"so-cart"` localStorage slot is `StoredVal`: absent,
  present-but-unparseable (where `JSON.parse` throws), or a parsed JSON
  value, which is either `null`, an array of line items, or some other
  value (tracked only by its truthiness, which decides `v || []` and
  whether `v.forEach` throws).
* Operations that can throw return `Except String`.
-/

namespace SleepOutside

/-- The classes of JavaScript value a `Quantity` field can hold, grouped by
how `Number(x)` coerces them: a real number `q`, `null` (coerces to 0), or
anything whose coercion is NaN (absent field, `undefined`, `"abc"`, ...). -/
inductive QtyVal where
  | num (q : ℚ)
  | null
  | nan
deriving DecidableEq

/-- `Number(item.Quantity) || 1` from cart.js line 28: NaN and 0 are falsy,
so a missing/null/non-numeric quantity and an explicit 0 all become 1;
every other number (negative and fractional included) passes through. -/
def coerceQty : QtyVal → ℚ
  | QtyVal.num q => if q = 0 then 1 else q
  | QtyVal.null => 1
  | QtyVal.nan => 1

/-- The numeric value of a quantity field (0 for the non-numeric classes;
only used on normalized items, whose quantities are always numeric). -/
def qnum : QtyVal → ℚ
  | QtyVal.num q => q
  | QtyVal.null => 0
  | QtyVal.nan => 0

/-- The spec's counting of an input quantity: "each input Quantity that is
missing, null, or not coercible to a number is counted as 1"; a genuine
number (zero included) counts as itself. -/
def specCountedQty : QtyVal → ℚ
  | QtyVal.num q => q
  | QtyVal.null => 1
  | QtyVal.nan => 1

/-- JavaScript `existing.Quantity += quantity` (cart.js line 31): adding a
number to a number adds; `null` coerces to 0; NaN propagates. On the
normalizer's accumulator the first case is the only one that occurs. -/
def addQty : QtyVal → ℚ → QtyVal
  | QtyVal.num a, q => QtyVal.num (a + q)
  | QtyVal.null, q => QtyVal.num q
  | QtyVal.nan, _ => QtyVal.nan

/-- A cart line item. `Id`, `Quantity` and `FinalPrice` are the fields the
cart logic reads; `rest` stands for the remaining payload (Name, Images,
Colors, ...) carried along verbatim by the object spread on line 33. -/
structure CartLineItem where
  Id : String
  Quantity : QtyVal
  FinalPrice : ℚ
  rest : String
deriving DecidableEq

/-- The Ids of a list of items, in order. -/
def idsOf (l : List CartLineItem) : List String := l.map (fun it => it.Id)

/-- Replace the quantity of the (first) entry with the given Id by adding
`q` to it — the `existing.Quantity += quantity` branch acting on the
insertion-ordered Map of cart.js lines 29-31. -/
def bumpFirst (id : String) (q : ℚ) : List CartLineItem → List CartLineItem
  | [] => []
  | e :: es =>
    if e.Id = id then { e with Quantity := addQty e.Quantity q } :: es
    else e :: bumpFirst id q es

/-- One iteration of the `items.forEach` loop of cart.js lines 27-35 on the
insertion-ordered map (represented as a list with unique Ids). -/
def step (acc : List CartLineItem) (item : CartLineItem) : List CartLineItem :=
  let quantity := coerceQty item.Quantity
  if item.Id ∈ idsOf acc then bumpFirst item.Id quantity acc
  else acc ++ [{ item with Quantity := QtyVal.num quantity }]

/-- `combineDuplicateItems` (cart.js lines 14-37): fold the items into an
insertion-ordered map keyed by Id, coercing each quantity with
`Number(x) || 1` and summing within a key; return the values in order. -/
def combineDuplicateItems (items : List CartLineItem) : List CartLineItem :=
  items.foldl step []

/-- What one `forEach` pass does to an item that is alone under its Id:
its quantity is re-coerced (`Number(q) || 1`), everything else is kept. -/
def renormItem (it : CartLineItem) : CartLineItem :=
  { it with Quantity := QtyVal.num (coerceQty it.Quantity) }

/-- A parsed JSON value, at the granularity the cart code observes: `null`,
an array of line items, or some other value of which only truthiness
matters (it decides `v || []` and whether `v.forEach` exists). -/
inductive ParsedVal where
  | nullv
  | arr (items : List CartLineItem)
  | other (truthy : Bool)
deriving DecidableEq

/-- The persisted `"so-cart"` localStorage slot: absent key, content on
which `JSON.parse` throws, or content parsing to a `ParsedVal`. -/
inductive StoredVal where
  | absent
  | malformed
  | val (v : ParsedVal)
deriving DecidableEq

/-- `getLocalStorage` (utils.mjs lines 28-38): `JSON.parse(localStorage.
getItem(key))`. An absent key gives `null` (JSON.parse of null yields
null); unparseable content makes `JSON.parse` throw a SyntaxError. -/
def getLocalStorage : StoredVal → Except String ParsedVal
  | StoredVal.absent => Except.ok ParsedVal.nullv
  | StoredVal.malformed => Except.error "SyntaxError"
  | StoredVal.val v => Except.ok v

/-- `setLocalStorage` (utils.mjs lines 43-58) on the cart key: the array is
serialized and the slot now parses back to it. -/
def setLocalStorage (data : List CartLineItem) : StoredVal :=
  StoredVal.val (ParsedVal.arr data)

/-- `combineDuplicateItems(getLocalStorage("so-cart") || [])`, the read
performed by every cart operation: `null` and falsy non-arrays are
replaced by `[]`; a truthy non-array reaches `items.forEach` inside
`combineDuplicateItems` and throws a TypeError. -/
def loadCart (s : StoredVal) : Except String (List CartLineItem) :=
  match getLocalStorage s with
  | Except.error e => Except.error e
  | Except.ok ParsedVal.nullv => Except.ok (combineDuplicateItems [])
  | Except.ok (ParsedVal.arr items) => Except.ok (combineDuplicateItems items)
  | Except.ok (ParsedVal.other true) => Except.error "TypeError"
  | Except.ok (ParsedVal.other false) => Except.ok (combineDuplicateItems [])

/-- `renderCartContents` (cart.js lines 41-57), restricted to its effect on
the persisted slot: read and normalize, then write the normalized items
back (line 54). The DOM write of line 56 has no further effect here. -/
def renderCartContents (s : StoredVal) : Except String StoredVal :=
  match loadCart s with
  | Except.error e => Except.error e
  | Except.ok cartItems => Except.ok (setLocalStorage cartItems)

/-- The reduce of cart.js lines 126-129:
`total + item.FinalPrice * (Number(item.Quantity) || 1)` from 0. -/
def totalOf (items : List CartLineItem) : ℚ :=
  items.foldl (fun total it => total + it.FinalPrice * coerceQty it.Quantity) 0

/-- `getCartTotal` (cart.js lines 111-137): read and normalize, total the
items, and set the footer visibility — the Bool is the presence of the
`hide` class, added exactly when `finalTotal === 0` (lines 131-135).
The store is read, never written. -/
def getCartTotal (s : StoredVal) : Except String (ℚ × Bool) :=
  match loadCart s with
  | Except.error e => Except.error e
  | Except.ok cartItems =>
    Except.ok (totalOf cartItems, decide (totalOf cartItems = 0))

/-- `item.Id !== itemId` filtering of cart.js line 155. -/
def filterOutId (id : String) : List CartLineItem → List CartLineItem
  | [] => []
  | e :: es => if e.Id = id then filterOutId id es else e :: filterOutId id es

/-- `removeFromCart` (cart.js lines 141-160): read+normalize, filter the Id
out, persist, then `renderCartContents` (which re-reads and re-persists),
then `getCartTotal` and `countCartItems` (reads only). Returns the final
persisted slot. -/
def removeFromCart (s : StoredVal) (itemId : String) : Except String StoredVal :=
  match loadCart s with
  | Except.error e => Except.error e
  | Except.ok cartItems =>
    let updatedCart := filterOutId itemId cartItems
    match renderCartContents (setLocalStorage updatedCart) with
    | Except.error e => Except.error e
    | Except.ok s2 =>
      match getCartTotal s2 with
      | Except.error e => Except.error e
      | Except.ok _ => Except.ok s2

/-- What `parseInt(value, 10)` yields on the raw input string: some integer
(`intStr n`, covering prefixes like `"3.7"` ↦ 3), or NaN (`nanStr`). -/
inductive RawInput where
  | intStr (n : ℤ)
  | nanStr
deriving DecidableEq

/-- `parseInt(event.target.value, 10) || 1` of cart.js line 202. -/
def parseIntOr1 : RawInput → ℤ
  | RawInput.intStr n => if n = 0 then 1 else n
  | RawInput.nanStr => 1

/-- `cartItems.find((cartItem) => cartItem.Id === itemId)` (cart.js 204). -/
def findById (id : String) : List CartLineItem → Option CartLineItem
  | [] => none
  | e :: es => if e.Id = id then some e else findById id es

/-- `item.Quantity = quantity` through the alias returned by `find`: the
first entry with the Id gets the new quantity, in place. -/
def updateFirst (id : String) (q : QtyVal) : List CartLineItem → List CartLineItem
  | [] => []
  | e :: es =>
    if e.Id = id then { e with Quantity := q } :: es
    else e :: updateFirst id q es

/-- The change-event listener of cart.js lines 186-213 (the spec's
`set-quantity(id, rawValue)`): clamp the parsed quantity to at least 1,
read+normalize, and only if an item with the Id is found, overwrite its
quantity, persist, and re-render (which re-reads and re-persists);
otherwise do nothing. Returns the final persisted slot. -/
def setQuantity (s : StoredVal) (itemId : String) (raw : RawInput) : Except String StoredVal :=
  let quantity : ℤ := max 1 (parseIntOr1 raw)
  match loadCart s with
  | Except.error e => Except.error e
  | Except.ok cartItems =>
    match findById itemId cartItems with
    | some _ =>
      let updated := updateFirst itemId (QtyVal.num (quantity : ℚ)) cartItems
      match renderCartContents (setLocalStorage updated) with
      | Except.error e => Except.error e
      | Except.ok s2 =>
        match getCartTotal s2 with
        | Except.error e => Except.error e
        | Except.ok _ => Except.ok s2
    | none => Except.ok s

/-- The quantity stored under `id` in a list of items. -/
def getQty (l : List CartLineItem) (id : String) : Option QtyVal :=
  (findById id l).map (fun it => it.Quantity)

/-- The quantity stored under `id` in the slot an operation left behind
(none when the operation threw or the slot holds no array). -/
def finalQtyOf (r : Except String StoredVal) (id : String) : Option QtyVal :=
  match r with
  | Except.ok (StoredVal.val (ParsedVal.arr l)) => getQty l id
  | _ => none

instance : DecidableEq (Except String StoredVal) := fun x y =>
  match x, y with
  | Except.ok a, Except.ok b =>
    if h : a = b then isTrue (by rw [h])
    else isFalse (fun hh => h (Except.ok.inj hh))
  | Except.ok _, Except.error _ => isFalse (fun hh => Except.noConfusion hh)
  | Except.error _, Except.ok _ => isFalse (fun hh => Except.noConfusion hh)
  | Except.error a, Except.error b =>
    if h : a = b then isTrue (by rw [h])
    else isFalse (fun hh => h (Except.error.inj hh))

/-- Every item's quantity field is a genuine number. -/
def allNum (l : List CartLineItem) : Prop :=
  ∀ it ∈ l, ∃ q : ℚ, it.Quantity = QtyVal.num q

/-- The sum of the (numeric) quantity fields of a list of items. -/
def qsum (l : List CartLineItem) : ℚ :=
  (l.map (fun it => qnum it.Quantity)).sum

theorem qsum_nil : qsum [] = 0 := rfl

theorem qsum_cons (e : CartLineItem) (es : List CartLineItem) :
    qsum (e :: es) = qnum e.Quantity + qsum es := by
  simp [qsum]

theorem qsum_append (l₁ l₂ : List CartLineItem) :
    qsum (l₁ ++ l₂) = qsum l₁ + qsum l₂ := by
  simp [qsum]

theorem idsOf_append (l₁ l₂ : List CartLineItem) :
    idsOf (l₁ ++ l₂) = idsOf l₁ ++ idsOf l₂ := by
  simp [idsOf]

theorem bumpFirst_idsOf (id : String) (q : ℚ) (l : List CartLineItem) :
    idsOf (bumpFirst id q l) = idsOf l := by
  induction l with
  | nil => rfl
  | cons e es ih =>
    by_cases h : e.Id = id
    · simp [bumpFirst, h, idsOf]
    · simpa [bumpFirst, h, idsOf] using ih

theorem allNum_bumpFirst {l : List CartLineItem} (id : String) (q : ℚ)
    (h : allNum l) : allNum (bumpFirst id q l) := by
  induction l with
  | nil => intro it hit; cases hit
  | cons e es ih =>
    have hes : allNum es := fun it hit => h it (List.mem_cons_of_mem e hit)
    by_cases he : e.Id = id
    · intro it hit
      rw [bumpFirst, if_pos he] at hit
      rcases List.mem_cons.mp hit with rfl | hmem
      · obtain ⟨a, ha⟩ := h e (List.mem_cons_self e es)
        exact ⟨a + q, by simp [ha, addQty]⟩
      · exact h it (List.mem_cons_of_mem e hmem)
    · intro it hit
      rw [bumpFirst, if_neg he] at hit
      rcases List.mem_cons.mp hit with rfl | hmem
      · exact h it (List.mem_cons_self it es)
      · exact ih hes it hmem

theorem allNum_step {acc : List CartLineItem} (it : CartLineItem)
    (h : allNum acc) : allNum (step acc it) := by
  rw [step]
  by_cases hm : it.Id ∈ idsOf acc
  · rw [if_pos hm]; exact allNum_bumpFirst it.Id _ h
  · rw [if_neg hm]
    intro e he
    rcases List.mem_append.mp he with hmem | hmem
    · exact h e hmem
    · rcases List.mem_cons.mp hmem with rfl | habs
      · exact ⟨coerceQty it.Quantity, rfl⟩
      · cases habs

theorem nodup_step {acc : List CartLineItem} (it : CartLineItem)
    (h : (idsOf acc).Nodup) : (idsOf (step acc it)).Nodup := by
  rw [step]
  by_cases hm : it.Id ∈ idsOf acc
  · rw [if_pos hm, bumpFirst_idsOf]; exact h
  · rw [if_neg hm, idsOf_append]
    refine List.Nodup.append h (List.nodup_singleton _) ?_
    intro a ha hb
    have hae : a = it.Id := by simpa [idsOf] using hb
    exact hm (hae ▸ ha)

theorem foldl_step_nodup_allNum :
    ∀ (items acc : List CartLineItem), (idsOf acc).Nodup → allNum acc →
      (idsOf (List.foldl step acc items)).Nodup ∧ allNum (List.foldl step acc items) := by
  intro items
  induction items with
  | nil => intro acc h1 h2; exact ⟨h1, h2⟩
  | cons it its ih =>
    intro acc h1 h2
    rw [List.foldl_cons]
    exact ih (step acc it) (nodup_step it h1) (allNum_step it h2)

/-- The normalized cart has pairwise distinct Ids. -/
theorem combine_nodup (items : List CartLineItem) :
    (idsOf (combineDuplicateItems items)).Nodup :=
  (foldl_step_nodup_allNum items [] List.nodup_nil (fun _ h => absurd h (List.not_mem_nil _))).1

/-- Every quantity in the normalized cart is a genuine number. -/
theorem combine_allNum (items : List CartLineItem) :
    allNum (combineDuplicateItems items) :=
  (foldl_step_nodup_allNum items [] List.nodup_nil (fun _ h => absurd h (List.not_mem_nil _))).2

theorem qsum_bumpFirst {l : List CartLineItem} {id : String} (q : ℚ)
    (hmem : id ∈ idsOf l) (h : allNum l) :
    qsum (bumpFirst id q l) = qsum l + q := by
  induction l with
  | nil => simp [idsOf] at hmem
  | cons e es ih =>
    by_cases he : e.Id = id
    · obtain ⟨a, ha⟩ := h e (List.mem_cons_self e es)
      rw [bumpFirst, if_pos he, qsum_cons, qsum_cons, ha]
      simp only [addQty, qnum]
      ring
    · have hmem' : id ∈ idsOf es := by
        rcases List.mem_cons.mp hmem with h' | h'
        · exact absurd h'.symm he
        · exact h'
      have hes : allNum es := fun it hit => h it (List.mem_cons_of_mem e hit)
      rw [bumpFirst, if_neg he, qsum_cons, ih hmem' hes, qsum_cons]
      ring

theorem qsum_step (acc : List CartLineItem) (it : CartLineItem) (h : allNum acc) :
    qsum (step acc it) = qsum acc + coerceQty it.Quantity := by
  rw [step]
  by_cases hm : it.Id ∈ idsOf acc
  · rw [if_pos hm]; exact qsum_bumpFirst _ hm h
  · rw [if_neg hm, qsum_append, qsum_cons, qsum_nil]
    simp [qnum]

theorem qsum_foldl_step :
    ∀ (items acc : List CartLineItem), allNum acc →
      qsum (List.foldl step acc items)
        = qsum acc + (items.map (fun it => coerceQty it.Quantity)).sum := by
  intro items
  induction items with
  | nil => intro acc _; simp
  | cons it its ih =>
    intro acc h
    rw [List.foldl_cons, ih (step acc it) (allNum_step it h), qsum_step acc it h]
    simp only [List.map_cons, List.sum_cons]
    ring

/-- Normalization preserves the total coerced quantity: the sum of the
output quantities is the sum over the input of `Number(Quantity) || 1`. -/
theorem qsum_combine (items : List CartLineItem) :
    qsum (combineDuplicateItems items)
      = (items.map (fun it => coerceQty it.Quantity)).sum := by
  have h := qsum_foldl_step items [] (fun _ h => absurd h (List.not_mem_nil _))
  rw [combineDuplicateItems, h, qsum_nil, zero_add]

theorem foldl_step_fresh :
    ∀ (l acc : List CartLineItem), (idsOf l).Nodup →
      (∀ it ∈ l, it.Id ∉ idsOf acc) →
      List.foldl step acc l = acc ++ l.map renormItem := by
  intro l
  induction l with
  | nil => intro acc _ _; simp
  | cons e es ih =>
    intro acc hnd hfresh
    have hni : e.Id ∉ idsOf acc := hfresh e (List.mem_cons_self e es)
    have hstep : step acc e = acc ++ [renormItem e] := by
      rw [step, if_neg hni]; rfl
    have hnd' : (idsOf es).Nodup := by
      simpa [idsOf] using (List.Nodup.of_cons (by simpa [idsOf] using hnd))
    have hhead : e.Id ∉ idsOf es := by
      have : (e.Id :: idsOf es).Nodup := by simpa [idsOf] using hnd
      exact (List.nodup_cons.mp this).1
    have hfresh' : ∀ it ∈ es, it.Id ∉ idsOf (acc ++ [renormItem e]) := by
      intro it hit
      rw [idsOf_append]
      intro hcon
      rcases List.mem_append.mp hcon with hc | hc
      · exact hfresh it (List.mem_cons_of_mem e hit) hc
      · have hid : it.Id = e.Id := by simpa [idsOf, renormItem] using hc
        exact hhead (hid ▸ List.mem_map_of_mem (fun x => x.Id) hit)
    rw [List.foldl_cons, hstep, ih (acc ++ [renormItem e]) hnd' hfresh']
    simp

/-- On a list whose Ids are already distinct, one normalization pass only
re-coerces each quantity in place. -/
theorem combine_of_nodup_ids (l : List CartLineItem) (h : (idsOf l).Nodup) :
    combineDuplicateItems l = l.map renormItem := by
  have := foldl_step_fresh l [] h (by intro it _ hc; simp [idsOf] at hc)
  simpa [combineDuplicateItems] using this

theorem renormItem_eq_self {it : CartLineItem} {q : ℚ}
    (hq : it.Quantity = QtyVal.num q) (hne : q ≠ 0) : renormItem it = it := by
  cases it with
  | mk i Q p r =>
    cases hq
    simp [renormItem, coerceQty, hne]

/-- A list with distinct Ids whose quantities are all nonzero numbers is a
fixed point of the normalizer. -/
theorem combine_eq_self (l : List CartLineItem) (hnd : (idsOf l).Nodup)
    (h : ∀ it ∈ l, ∃ q : ℚ, it.Quantity = QtyVal.num q ∧ q ≠ 0) :
    combineDuplicateItems l = l := by
  rw [combine_of_nodup_ids l hnd]
  have : l.map renormItem = l.map id := by
    apply List.map_congr_left
    intro it hit
    obtain ⟨q, hq, hne⟩ := h it hit
    simpa using renormItem_eq_self hq hne
  simpa using this

/-- An input quantity whose numeric coercion is a nonnegative integer (or
is missing/null/non-numeric): the inputs for which positivity of the
normalized quantities can be guaranteed. -/
def QtyPreOK : QtyVal → Prop
  | QtyVal.num q => q.den = 1 ∧ 0 ≤ q.num
  | QtyVal.null => True
  | QtyVal.nan => True

instance (v : QtyVal) : Decidable (QtyPreOK v) :=
  match v with
  | QtyVal.num q => inferInstanceAs (Decidable (q.den = 1 ∧ 0 ≤ q.num))
  | QtyVal.null => inferInstanceAs (Decidable True)
  | QtyVal.nan => inferInstanceAs (Decidable True)

/-- A quantity field holding a positive integer (at minimum 1). -/
def QtyIsPosInt : QtyVal → Prop
  | QtyVal.num q => q.den = 1 ∧ 1 ≤ q.num
  | QtyVal.null => False
  | QtyVal.nan => False

instance (v : QtyVal) : Decidable (QtyIsPosInt v) :=
  match v with
  | QtyVal.num q => inferInstanceAs (Decidable (q.den = 1 ∧ 1 ≤ q.num))
  | QtyVal.null => inferInstanceAs (Decidable False)
  | QtyVal.nan => inferInstanceAs (Decidable False)

theorem posInt_one : (1 : ℚ).den = 1 ∧ 1 ≤ (1 : ℚ).num := by
  rw [Rat.den_one, Rat.num_one]
  exact ⟨rfl, le_refl 1⟩

theorem den_one_add {a b : ℚ} (ha : a.den = 1) (hb : b.den = 1) :
    (a + b).den = 1 ∧ (a + b).num = a.num + b.num := by
  have ha' : (a.num : ℚ) = a := Rat.coe_int_num_of_den_eq_one ha
  have hb' : (b.num : ℚ) = b := Rat.coe_int_num_of_den_eq_one hb
  have hsum : a + b = ((a.num + b.num : ℤ) : ℚ) := by
    rw [Int.cast_add, ha', hb']
  rw [hsum, Rat.intCast_den, Rat.intCast_num]
  exact ⟨rfl, rfl⟩

theorem coerce_posInt {v : QtyVal} (h : QtyPreOK v) :
    (coerceQty v).den = 1 ∧ 1 ≤ (coerceQty v).num := by
  cases v with
  | null => exact posInt_one
  | nan => exact posInt_one
  | num q =>
    obtain ⟨hd, hn⟩ := h
    by_cases h0 : q = 0
    · rw [coerceQty, if_pos h0]; exact posInt_one
    · rw [coerceQty, if_neg h0]
      have hnz : q.num ≠ 0 := Rat.num_ne_zero.mpr h0
      exact ⟨hd, by omega⟩

theorem posInt_addQty {v : QtyVal} {q : ℚ} (hv : QtyIsPosInt v)
    (hq : q.den = 1 ∧ 1 ≤ q.num) : QtyIsPosInt (addQty v q) := by
  cases v with
  | num a =>
    obtain ⟨hd, hn⟩ := hv
    have hadd := den_one_add hd hq.1
    exact ⟨hadd.1, by rw [hadd.2]; omega⟩
  | null => exact hv.elim
  | nan => exact hv.elim

/-- All quantities in the list are positive integers. -/
def allPosInt (l : List CartLineItem) : Prop :=
  ∀ it ∈ l, QtyIsPosInt it.Quantity

theorem allPosInt_bumpFirst {l : List CartLineItem} {id : String} {q : ℚ}
    (h : allPosInt l) (hq : q.den = 1 ∧ 1 ≤ q.num) :
    allPosInt (bumpFirst id q l) := by
  induction l with
  | nil => intro it hit; cases hit
  | cons e es ih =>
    have hes : allPosInt es := fun it hit => h it (List.mem_cons_of_mem e hit)
    by_cases he : e.Id = id
    · intro it hit
      rw [bumpFirst, if_pos he] at hit
      rcases List.mem_cons.mp hit with rfl | hmem
      · exact posInt_addQty (h e (List.mem_cons_self e es)) hq
      · exact h it (List.mem_cons_of_mem e hmem)
    · intro it hit
      rw [bumpFirst, if_neg he] at hit
      rcases List.mem_cons.mp hit with rfl | hmem
      · exact h it (List.mem_cons_self it es)
      · exact ih hes it hmem

theorem allPosInt_step {acc : List CartLineItem} {it : CartLineItem}
    (h : allPosInt acc) (hpre : QtyPreOK it.Quantity) :
    allPosInt (step acc it) := by
  rw [step]
  by_cases hm : it.Id ∈ idsOf acc
  · rw [if_pos hm]; exact allPosInt_bumpFirst h (coerce_posInt hpre)
  · rw [if_neg hm]
    intro e he
    rcases List.mem_append.mp he with hmem | hmem
    · exact h e hmem
    · rcases List.mem_cons.mp hmem with rfl | habs
      · exact coerce_posInt hpre
      · cases habs

theorem foldl_step_posInt :
    ∀ (items acc : List CartLineItem), allPosInt acc →
      (∀ it ∈ items, QtyPreOK it.Quantity) →
      allPosInt (List.foldl step acc items) := by
  intro items
  induction items with
  | nil => intro acc h _; exact h
  | cons it its ih =>
    intro acc h hpre
    rw [List.foldl_cons]
    exact ih (step acc it)
      (allPosInt_step h (hpre it (List.mem_cons_self it its)))
      (fun e he => hpre e (List.mem_cons_of_mem it he))

/-- C1. The claim as stated is false: the code's coercion
`Number(item.Quantity) || 1` also counts an explicit quantity of 0 as 1,
while the claim counts only missing/null/non-coercible quantities as 1.
On the one-item cart with `Quantity: 0` the output quantity sum is 1 but
the claim's input sum is 0. -/
theorem C1_counterexample_zero_quantity :
    ¬ ((idsOf (combineDuplicateItems [⟨"A", QtyVal.num 0, 5, "r"⟩])).Nodup ∧
       qsum (combineDuplicateItems [⟨"A", QtyVal.num 0, 5, "r"⟩])
         = (([⟨"A", QtyVal.num 0, 5, "r"⟩] : List CartLineItem).map
             (fun it => specCountedQty it.Quantity)).sum) := by
  with_unfolding_all decide

/-- C1 (amended). For every input sequence the normalizer's output has no
two entries with the same Id, and the sum of the output quantities equals
the sum of the input quantities, where each input quantity that is
missing, null, zero, or not coercible to a number is counted as 1 (the
coercion `Number(x) || 1`). -/
theorem C1_normalizer_nodup_and_sum (items : List CartLineItem) :
    (idsOf (combineDuplicateItems items)).Nodup ∧
    qsum (combineDuplicateItems items)
      = (items.map (fun it => coerceQty it.Quantity)).sum :=
  ⟨combine_nodup items, qsum_combine items⟩

/-- C2. The claim as stated is false: normalizing is not idempotent when
two entries under one Id have quantities summing to 0 — the first pass
stores quantity 0, the second coerces it to 1. -/
theorem C2_counterexample_zero_sum :
    combineDuplicateItems (combineDuplicateItems
      [⟨"A", QtyVal.num 2, 5, "r"⟩, ⟨"A", QtyVal.num (-2), 5, "r"⟩])
    ≠ combineDuplicateItems
      [⟨"A", QtyVal.num 2, 5, "r"⟩, ⟨"A", QtyVal.num (-2), 5, "r"⟩] := by
  with_unfolding_all decide

/-- C2 (amended). The normalizer is idempotent on every input whose
normalized output contains no quantity equal to 0 (in particular whenever
no Id's coerced quantities sum to 0). -/
theorem C2_idempotent_of_no_zero (x : List CartLineItem)
    (h : ∀ it ∈ combineDuplicateItems x, it.Quantity ≠ QtyVal.num 0) :
    combineDuplicateItems (combineDuplicateItems x) = combineDuplicateItems x := by
  apply combine_eq_self _ (combine_nodup x)
  intro it hit
  obtain ⟨q, hq⟩ := combine_allNum x it hit
  refine ⟨q, hq, fun h0 => h it hit ?_⟩
  rw [hq, h0]

/-- C2 witness: a concrete cart with duplicate Ids and nonzero sums, on
which the hypothesis holds and normalization is idempotent. -/
theorem C2_idempotent_witness :
    combineDuplicateItems (combineDuplicateItems
      [⟨"A", QtyVal.num 2, 5, "r"⟩, ⟨"A", QtyVal.num 3, 5, "r"⟩])
    = combineDuplicateItems
      [⟨"A", QtyVal.num 2, 5, "r"⟩, ⟨"A", QtyVal.num 3, 5, "r"⟩] :=
  C2_idempotent_of_no_zero _ (by with_unfolding_all decide)

/-- C3. The claim as stated is false: the coercion `Number(x) || 1` lets a
negative numeric quantity pass through unchanged, so after normalizing
`[{Id:"A", Quantity:-3}]` the persisted quantity is −3, not a positive
integer. -/
theorem C3_counterexample_negative_quantity :
    ¬ (∀ it ∈ combineDuplicateItems [⟨"A", QtyVal.num (-3), 5, "r"⟩],
        QtyIsPosInt it.Quantity) := by
  with_unfolding_all decide

/-- C3 (amended). After normalization every line item's quantity is a
positive integer of at least 1, provided every numeric input quantity is
a nonnegative integer (missing, null, zero and non-numeric quantities are
coerced to 1); a negative or fractional numeric input quantity is instead
passed through (and summed) unchanged. -/
theorem C3_posInt_of_preOK (items : List CartLineItem)
    (h : ∀ it ∈ items, QtyPreOK it.Quantity) :
    ∀ it ∈ combineDuplicateItems items, QtyIsPosInt it.Quantity :=
  foldl_step_posInt items [] (fun _ hit => absurd hit (List.not_mem_nil _)) h

/-- C3 witness: a cart mixing an explicit 0, a null and a missing quantity
under duplicate Ids; all normalized quantities are positive integers. -/
theorem C3_posInt_witness :
    (∀ it ∈ ([⟨"A", QtyVal.num 0, 5, "r"⟩, ⟨"A", QtyVal.null, 5, "r"⟩,
              ⟨"B", QtyVal.nan, 7, "s"⟩] : List CartLineItem),
       QtyPreOK it.Quantity) ∧
    (∀ it ∈ combineDuplicateItems
        [⟨"A", QtyVal.num 0, 5, "r"⟩, ⟨"A", QtyVal.null, 5, "r"⟩,
         ⟨"B", QtyVal.nan, 7, "s"⟩],
       QtyIsPosInt it.Quantity) :=
  ⟨by with_unfolding_all decide,
   C3_posInt_of_preOK _ (by with_unfolding_all decide)⟩

theorem idsOf_cons (e : CartLineItem) (es : List CartLineItem) :
    idsOf (e :: es) = e.Id :: idsOf es := rfl

theorem loadCart_arr (c : List CartLineItem) :
    loadCart (StoredVal.val (ParsedVal.arr c))
      = Except.ok (combineDuplicateItems c) := rfl

theorem removeFromCart_arr (c : List CartLineItem) (id : String) :
    removeFromCart (StoredVal.val (ParsedVal.arr c)) id
      = Except.ok (StoredVal.val (ParsedVal.arr
          (combineDuplicateItems (filterOutId id (combineDuplicateItems c))))) := rfl

theorem getCartTotal_arr (c : List CartLineItem) :
    getCartTotal (StoredVal.val (ParsedVal.arr c))
      = Except.ok (totalOf (combineDuplicateItems c),
          decide (totalOf (combineDuplicateItems c) = 0)) := rfl

theorem finalQtyOf_ok_arr (m : List CartLineItem) (id : String) :
    finalQtyOf (Except.ok (StoredVal.val (ParsedVal.arr m))) id = getQty m id := rfl

theorem mem_of_mem_filterOutId {it : CartLineItem} {id : String}
    {l : List CartLineItem} (h : it ∈ filterOutId id l) : it ∈ l := by
  induction l with
  | nil => simp [filterOutId] at h
  | cons e es ih =>
    by_cases he : e.Id = id
    · rw [filterOutId, if_pos he] at h
      exact List.mem_cons_of_mem e (ih h)
    · rw [filterOutId, if_neg he] at h
      rcases List.mem_cons.mp h with rfl | hm
      · exact List.mem_cons_self it es
      · exact List.mem_cons_of_mem e (ih hm)

theorem idsOf_filterOutId_sublist (id : String) (l : List CartLineItem) :
    List.Sublist (idsOf (filterOutId id l)) (idsOf l) := by
  induction l with
  | nil => simp [filterOutId, idsOf]
  | cons e es ih =>
    by_cases he : e.Id = id
    · rw [filterOutId, if_pos he, idsOf_cons]
      exact ih.trans (List.sublist_cons_self e.Id (idsOf es))
    · rw [filterOutId, if_neg he, idsOf_cons, idsOf_cons]
      exact ih.cons₂ e.Id

theorem nodup_filterOutId {l : List CartLineItem} (id : String)
    (h : (idsOf l).Nodup) : (idsOf (filterOutId id l)).Nodup :=
  h.sublist (idsOf_filterOutId_sublist id l)

theorem filterOutId_eq_self {l : List CartLineItem} {id : String}
    (h : ∀ it ∈ l, it.Id ≠ id) : filterOutId id l = l := by
  induction l with
  | nil => rfl
  | cons e es ih =>
    rw [filterOutId, if_neg (h e (List.mem_cons_self e es)),
        ih (fun it hit => h it (List.mem_cons_of_mem e hit))]

theorem idsOf_map_renorm (l : List CartLineItem) :
    idsOf (l.map renormItem) = idsOf l := by
  induction l with
  | nil => rfl
  | cons e es ih => rw [List.map_cons, idsOf_cons, idsOf_cons, ih]; rfl

/-- C4. The claim as stated is false: `getLocalStorage` calls `JSON.parse`
with no try/catch, so unparseable persisted content makes every cart
operation throw a SyntaxError instead of treating the state as an empty
cart; likewise a parseable truthy non-array value reaches `items.forEach`
and throws a TypeError. -/
theorem C4_counterexample_malformed_throws :
    removeFromCart StoredVal.malformed "A" = Except.error "SyntaxError" ∧
    getCartTotal StoredVal.malformed = Except.error "SyntaxError" ∧
    renderCartContents StoredVal.malformed = Except.error "SyntaxError" ∧
    loadCart (StoredVal.val (ParsedVal.other true)) = Except.error "TypeError" := by
  exact ⟨rfl, rfl, rfl, rfl⟩

/-- C4 (amended). The defensive default is narrower than claimed: only a
persisted value that is absent, or parses to a falsy value (null, false,
0, the empty string), is treated as an empty cart, and then every cart
operation (load-and-display, remove, set-quantity, total) succeeds
without throwing; unparseable content and truthy non-array values instead
make the operations throw. -/
theorem C4_falsy_treated_as_empty (s : StoredVal)
    (h : s = StoredVal.absent ∨ s = StoredVal.val ParsedVal.nullv
       ∨ s = StoredVal.val (ParsedVal.other false))
    (id : String) (raw : RawInput) :
    loadCart s = Except.ok [] ∧
    renderCartContents s = Except.ok (StoredVal.val (ParsedVal.arr [])) ∧
    removeFromCart s id = Except.ok (StoredVal.val (ParsedVal.arr [])) ∧
    setQuantity s id raw = Except.ok s ∧
    getCartTotal s = Except.ok (0, true) := by
  rcases h with rfl | rfl | rfl <;>
    exact ⟨rfl, rfl, rfl, rfl, by with_unfolding_all rfl⟩

/-- C4 witness: the absent key, an arbitrary Id and raw input. -/
theorem C4_falsy_witness :
    loadCart StoredVal.absent = Except.ok [] ∧
    renderCartContents StoredVal.absent
      = Except.ok (StoredVal.val (ParsedVal.arr [])) ∧
    removeFromCart StoredVal.absent "A"
      = Except.ok (StoredVal.val (ParsedVal.arr [])) ∧
    setQuantity StoredVal.absent "A" RawInput.nanStr = Except.ok StoredVal.absent ∧
    getCartTotal StoredVal.absent = Except.ok (0, true) :=
  C4_falsy_treated_as_empty StoredVal.absent (Or.inl rfl) "A" RawInput.nanStr

/-- C5. The claim quantified over every persisted cart is false: when the
line items surviving the removal include an Id whose merged quantity is
0, the re-render that follows the removal coerces that 0 to 1, so the
final persisted cart is not the filtered normalized cart. -/
theorem C5_counterexample_zero_sum_remainder :
    removeFromCart (StoredVal.val (ParsedVal.arr
        [⟨"A", QtyVal.num 1, 5, "ra"⟩, ⟨"B", QtyVal.num 2, 3, "rb"⟩,
         ⟨"B", QtyVal.num (-2), 3, "rb"⟩])) "A"
      ≠ Except.ok (StoredVal.val (ParsedVal.arr
          (filterOutId "A" (combineDuplicateItems
            [⟨"A", QtyVal.num 1, 5, "ra"⟩, ⟨"B", QtyVal.num 2, 3, "rb"⟩,
             ⟨"B", QtyVal.num (-2), 3, "rb"⟩])))) := by
  with_unfolding_all decide

/-- C5 (amended). Whenever no merged quantity in the normalized cart is 0,
`remove(id)` leaves as the persisted cart exactly the normalized cart with
every item of that Id filtered out; and on the spec's concrete example —
cart [{A,2},{A,3},{B,1}], remove("A") — the persisted cart is
[{B, Quantity 1}] and the recomputed total is B's price times 1. -/
theorem C5_remove_persists_filtered :
    (∀ (c : List CartLineItem) (id : String),
        (∀ it ∈ combineDuplicateItems c, it.Quantity ≠ QtyVal.num 0) →
        removeFromCart (StoredVal.val (ParsedVal.arr c)) id
          = Except.ok (StoredVal.val (ParsedVal.arr
              (filterOutId id (combineDuplicateItems c))))) ∧
    removeFromCart (StoredVal.val (ParsedVal.arr
        [⟨"A", QtyVal.num 2, 10, "ra"⟩, ⟨"A", QtyVal.num 3, 10, "ra"⟩,
         ⟨"B", QtyVal.num 1, 7, "rb"⟩])) "A"
      = Except.ok (StoredVal.val (ParsedVal.arr [⟨"B", QtyVal.num 1, 7, "rb"⟩])) ∧
    getCartTotal (StoredVal.val (ParsedVal.arr [⟨"B", QtyVal.num 1, 7, "rb"⟩]))
      = Except.ok (7 * 1, false) := by
  refine ⟨?_, by with_unfolding_all rfl, by with_unfolding_all rfl⟩
  intro c id h
  rw [removeFromCart_arr]
  have hco : combineDuplicateItems (filterOutId id (combineDuplicateItems c))
      = filterOutId id (combineDuplicateItems c) := by
    apply combine_eq_self _ (nodup_filterOutId id (combine_nodup c))
    intro it hit
    have hmem := mem_of_mem_filterOutId hit
    obtain ⟨q, hq⟩ := combine_allNum c it hmem
    refine ⟨q, hq, fun h0 => h it hmem ?_⟩
    rw [hq, h0]
  rw [hco]

/-- C5 witness: a one-item cart with quantity 1, removing its only Id. -/
theorem C5_remove_witness :
    removeFromCart (StoredVal.val (ParsedVal.arr [⟨"A", QtyVal.num 1, 5, "r"⟩])) "A"
      = Except.ok (StoredVal.val (ParsedVal.arr
          (filterOutId "A" (combineDuplicateItems [⟨"A", QtyVal.num 1, 5, "r"⟩])))) :=
  C5_remove_persists_filtered.1 _ "A" (by with_unfolding_all decide)

/-- C10. As stated ("the persisted store holds the normalized form of the
cart, quantities coerced and summed") the claim is false: when an Id's
coerced quantities sum to 0, the re-render inside `removeFromCart`
re-coerces that 0 to 1, so the final persisted value differs from the
normalized cart. -/
theorem C10_counterexample_zero_sum :
    removeFromCart (StoredVal.val (ParsedVal.arr
        [⟨"A", QtyVal.num 2, 5, "r"⟩, ⟨"A", QtyVal.num (-2), 5, "r"⟩])) "Z"
      ≠ Except.ok (StoredVal.val (ParsedVal.arr (combineDuplicateItems
          [⟨"A", QtyVal.num 2, 5, "r"⟩, ⟨"A", QtyVal.num (-2), 5, "r"⟩]))) := by
  with_unfolding_all decide

/-- C10 (amended). `remove(id)` with an Id matching no line item still
rewrites the persisted store: the final value is the normalized cart with
each quantity re-coerced once more (`Number(q) || 1`, so a merged quantity
of 0 becomes 1 and all others are unchanged); the set of distinct Ids is
unchanged, though the stored representation can differ from the
pre-operation value. -/
theorem C10_remove_nonmatching_rewrites (c : List CartLineItem) (id : String)
    (h : ∀ it ∈ combineDuplicateItems c, it.Id ≠ id) :
    removeFromCart (StoredVal.val (ParsedVal.arr c)) id
      = Except.ok (StoredVal.val (ParsedVal.arr
          ((combineDuplicateItems c).map renormItem)))
    ∧ idsOf ((combineDuplicateItems c).map renormItem)
        = idsOf (combineDuplicateItems c) := by
  refine ⟨?_, idsOf_map_renorm _⟩
  rw [removeFromCart_arr, filterOutId_eq_self h,
      combine_of_nodup_ids _ (combine_nodup c)]

/-- C10 witness: removing the absent Id "Z" from [{A,2},{A,3}] rewrites
the store with [{A,5}], which differs from the pre-operation value. -/
theorem C10_remove_nonmatching_witness :
    (removeFromCart (StoredVal.val (ParsedVal.arr
        [⟨"A", QtyVal.num 2, 5, "r"⟩, ⟨"A", QtyVal.num 3, 5, "r"⟩])) "Z"
      = Except.ok (StoredVal.val (ParsedVal.arr
          ((combineDuplicateItems
            [⟨"A", QtyVal.num 2, 5, "r"⟩, ⟨"A", QtyVal.num 3, 5, "r"⟩]).map renormItem)))
    ∧ idsOf ((combineDuplicateItems
        [⟨"A", QtyVal.num 2, 5, "r"⟩, ⟨"A", QtyVal.num 3, 5, "r"⟩]).map renormItem)
        = idsOf (combineDuplicateItems
            [⟨"A", QtyVal.num 2, 5, "r"⟩, ⟨"A", QtyVal.num 3, 5, "r"⟩]))
    ∧ (combineDuplicateItems
        [⟨"A", QtyVal.num 2, 5, "r"⟩, ⟨"A", QtyVal.num 3, 5, "r"⟩]).map renormItem
        ≠ [⟨"A", QtyVal.num 2, 5, "r"⟩, ⟨"A", QtyVal.num 3, 5, "r"⟩] :=
  ⟨C10_remove_nonmatching_rewrites _ "Z" (by with_unfolding_all decide),
   by with_unfolding_all decide⟩

theorem updateFirst_idsOf (id : String) (q : QtyVal) (l : List CartLineItem) :
    idsOf (updateFirst id q l) = idsOf l := by
  induction l with
  | nil => rfl
  | cons e es ih =>
    by_cases he : e.Id = id
    · rw [updateFirst, if_pos he, idsOf_cons, idsOf_cons]
    · rw [updateFirst, if_neg he, idsOf_cons, idsOf_cons, ih]

theorem findById_map_renorm (id : String) (l : List CartLineItem) :
    findById id (l.map renormItem) = (findById id l).map renormItem := by
  induction l with
  | nil => rfl
  | cons e es ih =>
    by_cases he : e.Id = id
    · rw [List.map_cons, findById, findById,
          if_pos (show (renormItem e).Id = id from he), if_pos he]
      rfl
    · rw [List.map_cons, findById, findById,
          if_neg (show ¬ (renormItem e).Id = id from he), if_neg he, ih]

theorem findById_updateFirst {l : List CartLineItem} {id : String}
    {it : CartLineItem} (q : QtyVal) (h : findById id l = some it) :
    findById id (updateFirst id q l) = some { it with Quantity := q } := by
  induction l with
  | nil => simp [findById] at h
  | cons e es ih =>
    by_cases he : e.Id = id
    · rw [findById, if_pos he] at h
      injection h with h
      subst h
      rw [updateFirst, if_pos he, findById,
          if_pos (show ({ e with Quantity := q } : CartLineItem).Id = id from he)]
    · rw [findById, if_neg he] at h
      rw [updateFirst, if_neg he, findById, if_neg he]
      exact ih h

theorem renderCartContents_arr (l : List CartLineItem) :
    renderCartContents (StoredVal.val (ParsedVal.arr l))
      = Except.ok (StoredVal.val (ParsedVal.arr (combineDuplicateItems l))) := rfl

/-- After the change handler writes an updated quantity `x ≠ 0` under an
existing Id, the re-render's extra normalization pass keeps it intact. -/
theorem getQty_combine_update {c : List CartLineItem} {id : String}
    {it0 : CartLineItem} {x : ℚ}
    (h : findById id (combineDuplicateItems c) = some it0) (hx : x ≠ 0) :
    getQty (combineDuplicateItems
        (updateFirst id (QtyVal.num x) (combineDuplicateItems c))) id
      = some (QtyVal.num x) := by
  have hnd : (idsOf (updateFirst id (QtyVal.num x)
      (combineDuplicateItems c))).Nodup := by
    rw [updateFirst_idsOf]
    exact combine_nodup c
  rw [getQty, combine_of_nodup_ids _ hnd, findById_map_renorm,
      findById_updateFirst _ h]
  rw [Option.map_map, Option.map_some']
  rw [show ((fun it => it.Quantity) ∘ renormItem) { it0 with Quantity := QtyVal.num x }
        = QtyVal.num (coerceQty (QtyVal.num x)) from rfl]
  rw [show coerceQty (QtyVal.num x) = if x = 0 then 1 else x from rfl, if_neg hx]

/-- C6. For every existing item Id and raw input, the quantity the change
handler stores is `Math.max(1, parseInt(raw, 10) || 1)`: the raw value
coerced to an integer and clamped to a minimum of 1; an input parsing to
−3 and a non-numeric input both yield exactly 1. -/
theorem C6_set_quantity_clamped :
    (∀ (c : List CartLineItem) (id : String) (raw : RawInput) (it0 : CartLineItem),
       findById id (combineDuplicateItems c) = some it0 →
       finalQtyOf (setQuantity (StoredVal.val (ParsedVal.arr c)) id raw) id
         = some (QtyVal.num ((max 1 (parseIntOr1 raw) : ℤ) : ℚ))
       ∧ 1 ≤ max 1 (parseIntOr1 raw)) ∧
    max 1 (parseIntOr1 (RawInput.intStr (-3))) = 1 ∧
    max 1 (parseIntOr1 RawInput.nanStr) = 1 := by
  refine ⟨?_, by decide, by decide⟩
  intro c id raw it0 h
  refine ⟨?_, le_max_left 1 _⟩
  have hstep : setQuantity (StoredVal.val (ParsedVal.arr c)) id raw
      = Except.ok (StoredVal.val (ParsedVal.arr
          (combineDuplicateItems (updateFirst id
            (QtyVal.num ((max 1 (parseIntOr1 raw) : ℤ) : ℚ))
            (combineDuplicateItems c))))) := by
    rw [setQuantity]
    simp only [loadCart_arr, h, setLocalStorage, renderCartContents_arr,
      getCartTotal_arr]
  rw [hstep, finalQtyOf_ok_arr]
  have hqne : ((max 1 (parseIntOr1 raw) : ℤ) : ℚ) ≠ 0 := by
    rw [Ne, Int.cast_eq_zero]
    have := le_max_left 1 (parseIntOr1 raw)
    omega
  exact getQty_combine_update h hqne

/-- C6 witness: setting the quantity of the existing item "A" with a raw
input parsing to −3 stores exactly 1. -/
theorem C6_set_quantity_witness :
    finalQtyOf (setQuantity (StoredVal.val (ParsedVal.arr
        [⟨"A", QtyVal.num 1, 5, "r"⟩])) "A" (RawInput.intStr (-3))) "A"
      = some (QtyVal.num ((max 1 (parseIntOr1 (RawInput.intStr (-3))) : ℤ) : ℚ))
    ∧ 1 ≤ max 1 (parseIntOr1 (RawInput.intStr (-3))) :=
  C6_set_quantity_clamped.1 [⟨"A", QtyVal.num 1, 5, "r"⟩] "A"
    (RawInput.intStr (-3)) ⟨"A", QtyVal.num 1, 5, "r"⟩
    (by with_unfolding_all decide)

/-- C7. When the Id matches no line item of the normalized cart, the
change handler performs no write: the persisted slot it returns is the
very value it started from. -/
theorem C7_set_quantity_missing_noop (c : List CartLineItem) (id : String)
    (raw : RawInput) (h : findById id (combineDuplicateItems c) = none) :
    setQuantity (StoredVal.val (ParsedVal.arr c)) id raw
      = Except.ok (StoredVal.val (ParsedVal.arr c)) := by
  rw [setQuantity]
  simp only [loadCart_arr, h]

/-- C7 witness: setting a quantity for the absent Id "A" leaves the
persisted cart [{B,1}] unchanged. -/
theorem C7_set_quantity_missing_witness :
    setQuantity (StoredVal.val (ParsedVal.arr [⟨"B", QtyVal.num 1, 7, "rb"⟩]))
        "A" (RawInput.intStr 5)
      = Except.ok (StoredVal.val (ParsedVal.arr [⟨"B", QtyVal.num 1, 7, "rb"⟩])) :=
  C7_set_quantity_missing_noop [⟨"B", QtyVal.num 1, 7, "rb"⟩] "A"
    (RawInput.intStr 5) (by with_unfolding_all decide)

theorem totalOf_eq_sum (items : List CartLineItem) :
    totalOf items
      = (items.map (fun it => it.FinalPrice * coerceQty it.Quantity)).sum := by
  suffices h : ∀ (l : List CartLineItem) (t : ℚ),
      List.foldl (fun total it => total + it.FinalPrice * coerceQty it.Quantity) t l
        = t + (l.map (fun it => it.FinalPrice * coerceQty it.Quantity)).sum by
    simpa [totalOf] using h items 0
  intro l
  induction l with
  | nil => intro t; simp
  | cons e es ih =>
    intro t
    rw [List.foldl_cons, ih, List.map_cons, List.sum_cons]
    ring

/-- C8. The claim as stated is false: the totalizer multiplies each price
by `Number(Quantity) || 1`, which counts a normalized quantity of 0 as 1,
while the claim counts only missing/non-coercible quantities as 1. On a
cart whose sole Id has coerced quantities summing to 0 the code's total is
10 while the claimed sum is 0. -/
theorem C8_counterexample_zero_quantity :
    totalOf (combineDuplicateItems
        [⟨"A", QtyVal.num 2, 10, "r"⟩, ⟨"A", QtyVal.num (-2), 10, "r"⟩])
      ≠ ((combineDuplicateItems
        [⟨"A", QtyVal.num 2, 10, "r"⟩, ⟨"A", QtyVal.num (-2), 10, "r"⟩]).map
          (fun it => it.FinalPrice * specCountedQty it.Quantity)).sum := by
  with_unfolding_all decide

/-- C8 (amended). The totalizer returns the sum over the normalized items
of price times quantity, where each quantity that is missing, null, zero,
or not coercible to a number is counted as 1; in particular the total of
the empty cart is 0 (with the summary hidden) and the total of
[{price 10, qty 2}, {price 5, qty 1}] is 25.00. -/
theorem C8_totalizer_sum :
    (∀ c : List CartLineItem,
       getCartTotal (StoredVal.val (ParsedVal.arr c))
         = Except.ok
             (((combineDuplicateItems c).map
                 (fun it => it.FinalPrice * coerceQty it.Quantity)).sum,
              decide (((combineDuplicateItems c).map
                 (fun it => it.FinalPrice * coerceQty it.Quantity)).sum = 0))) ∧
    getCartTotal (StoredVal.val (ParsedVal.arr [])) = Except.ok (0, true) ∧
    getCartTotal (StoredVal.val (ParsedVal.arr
        [⟨"X", QtyVal.num 2, 10, "x"⟩, ⟨"Y", QtyVal.num 1, 5, "y"⟩]))
      = Except.ok (25, false) := by
  refine ⟨?_, by with_unfolding_all rfl, by with_unfolding_all rfl⟩
  intro c
  rw [getCartTotal_arr, totalOf_eq_sum]

/-- C9. After every successful evaluation of the totalizer, the summary
region's hidden flag is set if and only if the computed total is exactly
0; every nonzero total shows the region. -/
theorem C9_footer_hidden_iff_zero (c : List CartLineItem) (t : ℚ) (hidden : Bool)
    (h : getCartTotal (StoredVal.val (ParsedVal.arr c)) = Except.ok (t, hidden)) :
    hidden = true ↔ t = 0 := by
  rw [getCartTotal_arr] at h
  injection h with h
  rw [Prod.mk.injEq] at h
  obtain ⟨h1, h2⟩ := h
  subst h1
  subst h2
  exact decide_eq_true_iff

/-- C9 witness: the empty cart totals 0 and the hidden flag is set. -/
theorem C9_footer_witness :
    getCartTotal (StoredVal.val (ParsedVal.arr [])) = Except.ok (0, true)
    ∧ ((true : Bool) = true ↔ (0 : ℚ) = 0) :=
  ⟨by with_unfolding_all rfl,
   C9_footer_hidden_iff_zero [] 0 true (by with_unfolding_all rfl)⟩

end SleepOutside
